import Mathlib

/-
Verification of `script/update_plugin.py` (class `PluginUpdater`).

Shallow embedding conventions:
  * Python/JSON values are modelled by `PyVal`.  `json.load` maps JSON `null`
    to Python `None`; both are `PyVal.null`.  `dict.get` of a missing key also
    yields `None`, exactly as in Python.  Python `==` on the JSON fragment the
    script manipulates is structural equality, modelled by `PyVal.beq`
    (the numeric cross-type coercions of Python `==`, e.g. `True == 1`, are
    never exercised by the script's comparisons of names and version strings).
  * The filesystem under the target directory and the git-committed state are
    association lists from path strings to file contents (`FileData`).  A file
    the script wrote is `FileData.json v`; `json.dump` is deterministic, so
    equality of `FileData` stands for byte-for-byte equality of files.
    `FileData.invalid` is a file whose bytes fail to parse as JSON.
  * HTTP is an environment: `Env.manifests` maps a manifest URL to the parsed
    JSON document (`Option.none` covers non-200 status, transport errors and
    JSON parse errors — `download_manifest` returns `None` for all of them);
    `Env.artifacts` maps a download URL to the bytes served.  `Env.hashHex`
    is `hashlib.sha256(...).hexdigest()` on those bytes, left uninterpreted:
    `calculate_sha256` streams exactly the bytes `download_zip` stored in the
    shared temp file, so the composite is `hashHex` of the bytes served.
  * `git add <p>; git commit -m <label>` (run with `check=False`) stages the
    file at `p` and commits iff its content differs from the committed state;
    committing an unchanged file stages nothing and the commit exits non-zero
    without creating a commit, which `recordChange` models as a no-op.
    `git status --porcelain` lists each path whose working content differs
    from the committed state; the script only asks whether the literal
    substring "plugins/index.json" occurs in that output.  A porcelain line is
    a two-character status, a space, then the path; the needle contains
    neither a space, `M`, `?` nor a newline, so it occurs in the output iff it
    occurs in one of the pending paths (`St.dirtOut` records whether some
    repository file never touched by the script contributes an occurrence).
-/

inductive PyVal where
  | null
  | bool (b : Bool)
  | int (n : Int)
  | str (s : String)
  | list (xs : List PyVal)
  | dict (kvs : List (String × PyVal))

/- Python `==` on the values the script compares (structural on this JSON
fragment). -/
mutual
def PyVal.beq : PyVal → PyVal → Bool
  | .null, .null => true
  | .bool a, .bool b => a == b
  | .int a, .int b => a == b
  | .str a, .str b => a == b
  | .list xs, .list ys => pyBeqList xs ys
  | .dict xs, .dict ys => pyBeqDict xs ys
  | _, _ => false
def pyBeqList : List PyVal → List PyVal → Bool
  | [], [] => true
  | x :: xs, y :: ys => PyVal.beq x y && pyBeqList xs ys
  | _, _ => false
def pyBeqDict : List (String × PyVal) → List (String × PyVal) → Bool
  | [], [] => true
  | (k₁, v₁) :: xs, (k₂, v₂) :: ys => k₁ == k₂ && PyVal.beq v₁ v₂ && pyBeqDict xs ys
  | _, _ => false
end

/-- Python truthiness of the values `json` can produce. -/
def PyVal.truthy : PyVal → Bool
  | .null => false
  | .bool b => b
  | .int n => n != 0
  | .str s => s != ""
  | .list xs => !xs.isEmpty
  | .dict kvs => !kvs.isEmpty

/- Python `str()`/`repr()` of a value, as used by f-strings.  Faithful for
`None`, booleans, integers and (for `str`, via `pyStr`) strings — the only
shapes the script ever interpolates; container rendering approximates
Python's `repr` without escaping. -/
mutual
def pyRepr : PyVal → String
  | .null => "None"
  | .bool b => if b then "True" else "False"
  | .int n => toString n
  | .str s => "'" ++ s ++ "'"
  | .list xs => "[" ++ pyReprList xs ++ "]"
  | .dict kvs => "\x7b" ++ pyReprDict kvs ++ "\x7d"
def pyReprList : List PyVal → String
  | [] => ""
  | [x] => pyRepr x
  | x :: y :: t => pyRepr x ++ ", " ++ pyReprList (y :: t)
def pyReprDict : List (String × PyVal) → String
  | [] => ""
  | [(k, v)] => "'" ++ k ++ "': " ++ pyRepr v
  | (k, v) :: y :: t => "'" ++ k ++ "': " ++ pyRepr v ++ ", " ++ pyReprDict (y :: t)
end

/-- Python `f"{v}"`: `str()` of the value. -/
def pyStr : PyVal → String
  | .str s => s
  | v => pyRepr v

/-- First-match lookup in an association list (our model of a Python dict:
dicts built by `json.load` have unique keys). -/
def getAssoc {α : Type} : List (String × α) → String → Option α
  | [], _ => Option.none
  | (k, v) :: t, q => if k = q then some v else getAssoc t q

/-- Python `d[k] = v`: replace the value if the key is present (keeping its
position), otherwise append the new binding at the end. -/
def setAssoc {α : Type} : List (String × α) → String → α → List (String × α)
  | [], q, v => [(q, v)]
  | (k, w) :: t, q, v => if k = q then (q, v) :: t else (k, w) :: setAssoc t q v

/-- Python `d.get(k)`: the stored value, or `None` when the key is missing. -/
def dictGet (kvs : List (String × PyVal)) (k : String) : PyVal :=
  (getAssoc kvs k).getD PyVal.null

/-- Python `d.get(k, default)`: the stored value (even when it is `null`), or
the default only when the key is missing. -/
def dictGetD (kvs : List (String × PyVal)) (k : String) (d : PyVal) : PyVal :=
  (getAssoc kvs k).getD d

/-- Content of a file on disk: JSON the script can parse, or bytes on which
`json.load` raises. -/
inductive FileData where
  | json (v : PyVal)
  | invalid

def FileData.beq : FileData → FileData → Bool
  | .json a, .json b => PyVal.beq a b
  | .invalid, .invalid => true
  | _, _ => false

/-- `git`'s byte comparison of an optional working file against an optional
committed file. -/
def optFileBeq : Option FileData → Option FileData → Bool
  | Option.none, Option.none => true
  | some a, some b => FileData.beq a b
  | _, _ => false

/-- The remote world, fixed for the duration of a run (or of two runs, for
idempotence statements). -/
structure Env where
  manifests : String → Option PyVal
  artifacts : String → Option (List Nat)
  hashHex : List Nat → String

/-- Mutable state: working tree of the registry (paths under the target
directory plus anything else the repo holds), the git-committed contents,
the sequence of commit messages recorded, the shared `tmp.zip` file, and
whether porcelain output from repository files the script never writes
contains the substring "plugins/index.json". -/
structure St where
  files : List (String × FileData)
  committed : List (String × FileData)
  log : List String
  tmp : Option (List Nat)
  dirtOut : Bool

/-- `self.index_json_file = self.target_dir / "index.json"`. -/
def idxPath (tdir : String) : String := tdir ++ "/index.json"

/-- `f"{plugin_name}.json"`. -/
def recFileName (nm : PyVal) : String := pyStr nm ++ ".json"

/-- `self.target_dir / f"{plugin_name}.json"`. -/
def recPath (tdir : String) (nm : PyVal) : String := tdir ++ "/" ++ recFileName nm

/-- `download_manifest`: GET the URL (raising on a non-string argument),
yielding the parsed JSON, or `None` on any failure. -/
def download_manifest (env : Env) : PyVal → Option PyVal
  | .str u => env.manifests u
  | _ => Option.none

/-- Body of `check_version_changed` as a function of the record file it reads:
missing file → changed; `json.load` raising → changed (the `except` branch
falls through to `return True`); a parsed non-dict → `.get` raises → changed;
otherwise changed iff `current_data.get('version', '') == new_version` is
false. -/
def versionChangedFile : Option FileData → PyVal → Bool
  | Option.none, _ => true
  | some .invalid, _ => true
  | some (.json d), ver =>
    match d with
    | .dict rkvs => !(PyVal.beq (dictGetD rkvs "version" (.str "")) ver)
    | _ => true

/-- `check_version_changed(plugin_name, new_version)`: reads
`target_dir/f"{plugin_name}.json"`. -/
def check_version_changed (tdir : String) (st : St) (plugin_name new_version : PyVal) : Bool :=
  versionChangedFile (getAssoc st.files (recPath tdir plugin_name)) new_version

/-- `process_plugin` up to and including the identity check (lines 98–117):
reads and parses the source file (any exception → the handler returns
`(False, None)`), fetches the manifest, rejects a falsy manifest
(`if not manifest`), rejects a non-dict manifest (`.get` raises), and rejects
a manifest whose `name` differs from the source's `name`.  Yields the
manifest's bindings on success. -/
def fetchStage (env : Env) : FileData → Option (List (String × PyVal))
  | .invalid => Option.none
  | .json sourceData =>
    match sourceData with
    | .dict skvs =>
      match download_manifest env (dictGet skvs "manifestUrl") with
      | Option.none => Option.none
      | some manifest =>
        if manifest.truthy then
          match manifest with
          | .dict mkvs =>
            if PyVal.beq (dictGet mkvs "name") (dictGet skvs "name") then some mkvs
            else Option.none
          | _ => Option.none
        else Option.none
    | _ => Option.none

/-- `git add <p>; git commit -m <lbl>` with `check=False`: commits iff the
working content at `p` exists and differs from the committed content. -/
def recordChange (st : St) (p lbl : String) : St :=
  match getAssoc st.files p with
  | Option.none => st
  | some c =>
    if optFileBeq (some c) (getAssoc st.committed p) then st
    else { st with committed := setAssoc st.committed p c, log := st.log ++ [lbl] }

/-- Lines 140–151: write the enriched manifest to
`target_dir/f"{manifest_name}.json"` (whole-file overwrite) and commit it with
message `f"{manifest_name}: Update to version {new_version}"`.
(`if version_changed:` on line 146 is always true on this path.) -/
def commitRecord (tdir : String) (st : St) (nm ver record : PyVal) : St :=
  let p := recPath tdir nm
  let st₁ := { st with files := setAssoc st.files p (FileData.json record) }
  recordChange st₁ p (pyStr nm ++ ": Update to version " ++ pyStr ver)

/-- Lines 127–153, after the version was found changed: download the artifact
to the shared `tmp.zip` (failure → `(False, None)` with nothing written),
hash exactly the bytes stored there, set `manifest['sha256']`, unlink the
temp file, save the record and commit it. -/
def downloadStage (tdir : String) (env : Env) (st : St) (mkvs : List (String × PyVal)) :
    (Bool × Option PyVal) × St :=
  match dictGet mkvs "downloadUrl" with
  | .str durl =>
    match env.artifacts durl with
    | some bytes =>
      let record := PyVal.dict (setAssoc mkvs "sha256" (.str (env.hashHex bytes)))
      let st₁ := { st with tmp := Option.none }
      ((true, some record),
        commitRecord tdir st₁ (dictGet mkvs "name") (dictGet mkvs "version") record)
    | Option.none => ((false, Option.none), st)
  | _ => ((false, Option.none), st)

/-- `process_plugin(source_file)`: returns `(version_changed, manifest_data)`
and the successor state.  Every exception inside the body is caught by the
surrounding `try` and yields `(False, None)`. -/
def process_plugin (tdir : String) (env : Env) (st : St) (src : FileData) :
    (Bool × Option PyVal) × St :=
  match fetchStage env src with
  | Option.none => ((false, Option.none), st)
  | some mkvs =>
    if check_version_changed tdir st (dictGet mkvs "name") (dictGet mkvs "version") then
      downloadStage tdir env st mkvs
    else ((false, some (.dict mkvs)), st)

/-- Lines 173–177: the index entry built from a returned manifest.  Reaching
this with a non-dict manifest is impossible (`process_plugin` only returns
dicts); Python would raise outside any per-plugin handler there. -/
def indexEntry (m : PyVal) : PyVal :=
  match m with
  | .dict kvs =>
    .dict [("name", dictGet kvs "name"),
           ("desc", dictGetD kvs "description" (.str "")),
           ("homepage", dictGetD kvs "homepage" (.str ""))]
  | _ => .null

/-- `if manifest:` on line 171 — an entry is appended iff `process_plugin`
returned a truthy manifest. -/
def entryOf : Option PyVal → List PyVal
  | some m => if m.truthy then [indexEntry m] else []
  | Option.none => []

/-- The `for source_file in sorted(...)` loop (lines 168–180): processes each
source in order, accumulating index entries. -/
def runPlugins (tdir : String) (env : Env) : St → List FileData → List PyVal × St
  | st, [] => ([], st)
  | st, src :: rest =>
    let r := process_plugin tdir env st src
    let rec' := runPlugins tdir env r.2 rest
    (entryOf r.1.2 ++ rec'.1, rec'.2)

/-- Lexicographic comparison of strings by code point, as Python's `<=` on
`str` (and hence `sorted` over paths sharing one parent directory). -/
def charListLeB : List Char → List Char → Bool
  | [], _ => true
  | _ :: _, [] => false
  | c :: cs, d :: ds => if c = d then charListLeB cs ds else decide (c < d)

/-- Ordering of (filename, content) pairs: `sorted` over the glob result
orders the source files lexicographically by filename. -/
def sourceLe (a b : String × FileData) : Prop := charListLeB a.1.data b.1.data = true

instance : DecidableRel sourceLe :=
  fun a b => inferInstanceAs (Decidable (charListLeB a.1.data b.1.data = true))

instance : IsTotal (String × FileData) sourceLe := by
  constructor
  intro a b
  have H : ∀ u v : List Char, charListLeB u v = true ∨ charListLeB v u = true := by
    intro u
    induction u with
    | nil => intro v; left; rfl
    | cons x xs ih =>
      intro v
      cases v with
      | nil => right; rfl
      | cons y ys =>
        by_cases hxy : x = y
        · subst hxy
          rcases ih ys with h | h
          · left; simp [charListLeB, h]
          · right; simp [charListLeB, h]
        · have hyx : ¬y = x := fun e => hxy e.symm
          rcases lt_or_gt_of_ne hxy with h | h
          · left; simp [charListLeB, hxy, h]
          · right; simp [charListLeB, hyx, h]
  exact H a.1.data b.1.data

instance : IsTrans (String × FileData) sourceLe := by
  constructor
  intro a b c
  have H : ∀ u v w : List Char, charListLeB u v = true → charListLeB v w = true →
      charListLeB u w = true := by
    intro u
    induction u with
    | nil => intro v w _ _; rfl
    | cons x xs ih =>
      intro v w huv hvw
      cases v with
      | nil => simp [charListLeB] at huv
      | cons y ys =>
        cases w with
        | nil => simp [charListLeB] at hvw
        | cons z zs =>
          by_cases hxy : x = y
          · subst hxy
            simp only [charListLeB, if_pos rfl] at huv
            by_cases hyz : x = z
            · subst hyz
              simp only [charListLeB, if_pos rfl] at hvw ⊢
              exact ih ys zs huv hvw
            · simp only [charListLeB, if_neg hyz] at hvw ⊢
              exact hvw
          · simp only [charListLeB, if_neg hxy] at huv
            have hlt1 : x < y := of_decide_eq_true huv
            by_cases hyz : y = z
            · subst hyz
              simp only [charListLeB, if_neg hxy]
              exact decide_eq_true hlt1
            · simp only [charListLeB, if_neg hyz] at hvw
              have hlt2 : y < z := of_decide_eq_true hvw
              have hlt : x < z := lt_trans hlt1 hlt2
              simp only [charListLeB, if_neg (ne_of_lt hlt)]
              exact decide_eq_true hlt
  exact H a.1.data b.1.data c.1.data

/-- `sorted(self.source_dir.glob("*.json"))`, then each file's content. -/
def sortSources (sources : List (String × FileData)) : List FileData :=
  (List.insertionSort sourceLe sources).map Prod.snd

/-- Lines 183–184: overwrite `index.json` with the accumulated entries. -/
def writeIndexSt (tdir : String) (st : St) (entries : List PyVal) : St :=
  { st with files := setAssoc st.files (idxPath tdir) (FileData.json (.list entries)) }

/-- Substring test, as Python's `in` on strings. -/
def subSearch (n : List Char) : List Char → Bool
  | [] => n.isEmpty
  | c :: t => List.isPrefixOf n (c :: t) || subSearch n t

def strHasSub (needle hay : String) : Bool := subSearch needle.data hay.data

/-- The paths `git status --porcelain` lists: every tracked or working path
whose working content differs from the committed content. -/
def pendingPaths (st : St) : List String :=
  ((st.files.map Prod.fst) ++ (st.committed.map Prod.fst)).filter
    (fun p => !optFileBeq (getAssoc st.files p) (getAssoc st.committed p))

/-- Line 195: `"plugins/index.json" in result.stdout`.  The needle occurs in
the porcelain output iff it occurs in some pending path (see the header
comment) or in a line for a repository file the script never writes
(`dirtOut`). -/
def porcelainHasNeedle (st : St) : Bool :=
  st.dirtOut || (pendingPaths st).any (fun p => strHasSub "plugins/index.json" p)

/-- `update_all_plugins`: run every source in filename order, write the full
index, then commit `index.json` iff the porcelain output contains the
hardcoded substring "plugins/index.json". -/
def update_all_plugins (tdir : String) (env : Env) (st : St)
    (sources : List (String × FileData)) : St :=
  let r := runPlugins tdir env st (sortSources sources)
  let st₂ := writeIndexSt tdir r.2 r.1
  if porcelainHasNeedle st₂ then recordChange st₂ (idxPath tdir) "Update plugin index"
  else st₂

/-- The record path a source can write to: defined whenever the source passes
fetch, parse, truthiness and identity checks (only then does `process_plugin`
touch the filesystem), and equal to the path of the record it would write. -/
def srcKey (tdir : String) (env : Env) (src : FileData) : Option String :=
  (fetchStage env src).map (fun mkvs => recPath tdir (dictGet mkvs "name"))

/-- The loop state after all sources are processed and the index file has
been written, before the final commit decision. -/
def preCommitState (tdir : String) (env : Env) (st : St)
    (sources : List (String × FileData)) : St :=
  let r := runPlugins tdir env st (sortSources sources)
  writeIndexSt tdir r.2 r.1

/-- The spec's per-source reconciliation outcome (§4.6 steps 1–8): a source
contributes exactly one index entry iff its manifest fetch succeeds and
passes the identity check, and then either the version is unchanged (entry
from the fetched manifest, no state change) or the version changed and the
artifact fetch succeeds (entry from the enriched manifest, record persisted
and committed).  A failed fetch, identity mismatch, or failed artifact fetch
contributes nothing and leaves the registry untouched. -/
def specStep (tdir : String) (env : Env) (st : St) (src : FileData) : Option PyVal × St :=
  match fetchStage env src with
  | Option.none => (Option.none, st)
  | some mkvs =>
    if check_version_changed tdir st (dictGet mkvs "name") (dictGet mkvs "version") then
      match dictGet mkvs "downloadUrl" with
      | .str durl =>
        match env.artifacts durl with
        | some bytes =>
          let record := PyVal.dict (setAssoc mkvs "sha256" (.str (env.hashHex bytes)))
          (some (indexEntry record),
            commitRecord tdir { st with tmp := Option.none } (dictGet mkvs "name")
              (dictGet mkvs "version") record)
        | Option.none => (Option.none, st)
      | _ => (Option.none, st)
    else (some (indexEntry (.dict mkvs)), st)

/-- The index the spec predicts: one entry per qualifying source, in list
order, threading the registry state through full updates. -/
def specIndex (tdir : String) (env : Env) : St → List FileData → List PyVal
  | _, [] => []
  | st, src :: rest =>
    let r := specStep tdir env st src
    (match r.1 with | some e => [e] | Option.none => []) ++ specIndex tdir env r.2 rest

/- Concrete fixtures used by witnesses and counterexamples. -/

def stEmpty : St :=
  { files := [], committed := [], log := [], tmp := Option.none, dirtOut := false }

def skvsW : List (String × PyVal) := [("name", .str "x"), ("manifestUrl", .str "u")]

def mkvsW : List (String × PyVal) :=
  [("name", .str "x"), ("version", .str "1"), ("downloadUrl", .str "d"),
   ("description", .str "dd"), ("homepage", .str "hh")]

def srcW : FileData := .json (.dict skvsW)

def envW : Env :=
  { manifests := fun u => if u = "u" then some (.dict mkvsW) else Option.none
    artifacts := fun u => if u = "d" then some [7] else Option.none
    hashHex := fun _ => "h" }

def rkvsW : List (String × PyVal) := [("name", .str "x"), ("version", .str "1")]

def stRecW : St := { stEmpty with files := [("plugins/x.json", .json (.dict rkvsW))] }

def skvsM : List (String × PyVal) := [("name", .str "y"), ("manifestUrl", .str "u")]

def srcM : FileData := .json (.dict skvsM)

def envE : Env :=
  { manifests := fun u => if u = "u" then some (.dict []) else Option.none
    artifacts := fun _ => Option.none
    hashHex := fun _ => "h" }

/- C9 counterexample fixture: a record that parses but lacks `version`,
against a manifest whose version is the empty string. -/

def stC9 : St := { stEmpty with files := [("plugins/p.json", .json (.dict [("name", .str "p")]))] }

def mkvsC9 : List (String × PyVal) :=
  [("name", .str "p"), ("version", .str ""), ("downloadUrl", .str "dp")]

def srcC9 : FileData := .json (.dict [("name", .str "p"), ("manifestUrl", .str "up")])

def envC9 : Env :=
  { manifests := fun u => if u = "up" then some (.dict mkvsC9) else Option.none
    artifacts := fun u => if u = "dp" then some [2] else Option.none
    hashHex := fun _ => "h" }

def stInv : St := { stEmpty with files := [("plugins/x.json", FileData.invalid)] }

/- C7 counterexample fixture: two sources declaring the same plugin name with
different upstream versions, the first one's artifact unreachable, and an
existing record matching the first source's version. -/

def srcA7 : FileData := .json (.dict [("name", .str "n"), ("manifestUrl", .str "ua")])

def srcB7 : FileData := .json (.dict [("name", .str "n"), ("manifestUrl", .str "ub")])

def envDup : Env :=
  { manifests := fun u =>
      if u = "ua" then some (.dict [("name", .str "n"), ("version", .str "va"),
                                    ("downloadUrl", .str "da")])
      else if u = "ub" then some (.dict [("name", .str "n"), ("version", .str "vb"),
                                         ("downloadUrl", .str "db")])
      else Option.none
    artifacts := fun u => if u = "db" then some [1] else Option.none
    hashHex := fun _ => "h" }

def stDup : St :=
  { stEmpty with
    files := [("plugins/n.json", .json (.dict [("name", .str "n"), ("version", .str "va")]))] }

mutual
theorem PyVal.beq_refl : ∀ v : PyVal, PyVal.beq v v = true
  | .null => rfl
  | .bool b => by simp [PyVal.beq]
  | .int n => by simp [PyVal.beq]
  | .str s => by simp [PyVal.beq]
  | .list xs => by simpa [PyVal.beq] using pyBeqList_refl xs
  | .dict kvs => by simpa [PyVal.beq] using pyBeqDict_refl kvs
theorem pyBeqList_refl : ∀ xs : List PyVal, pyBeqList xs xs = true
  | [] => rfl
  | x :: xs => by simp [pyBeqList, PyVal.beq_refl x, pyBeqList_refl xs]
theorem pyBeqDict_refl : ∀ xs : List (String × PyVal), pyBeqDict xs xs = true
  | [] => rfl
  | (k, v) :: xs => by simp [pyBeqDict, PyVal.beq_refl v, pyBeqDict_refl xs]
end

theorem fileBeq_self : ∀ c : FileData, FileData.beq c c = true
  | .json v => PyVal.beq_refl v
  | .invalid => rfl

theorem optFileBeq_refl : ∀ o : Option FileData, optFileBeq o o = true
  | Option.none => rfl
  | some c => fileBeq_self c

theorem getAssoc_setAssoc_self {α : Type} (l : List (String × α)) (k : String) (v : α) :
    getAssoc (setAssoc l k v) k = some v := by
  induction l with
  | nil => simp [setAssoc, getAssoc]
  | cons hd t ih =>
    obtain ⟨k', w⟩ := hd
    by_cases h : k' = k
    · simp [setAssoc, getAssoc, h]
    · simp [setAssoc, getAssoc, h, ih]

theorem getAssoc_setAssoc_ne {α : Type} (l : List (String × α)) (k q : String) (v : α)
    (h : q ≠ k) : getAssoc (setAssoc l k v) q = getAssoc l q := by
  have h' : ¬(k = q) := fun hh => h hh.symm
  induction l with
  | nil => simp [setAssoc, getAssoc, h']
  | cons hd t ih =>
    obtain ⟨k', w⟩ := hd
    by_cases hk : k' = k
    · subst hk
      simp [setAssoc, getAssoc, h']
    · simp only [setAssoc, if_neg hk, getAssoc]
      by_cases hq : k' = q
      · simp [hq]
      · simp [hq, ih]

theorem setAssoc_eq_of_getAssoc {α : Type} (l : List (String × α)) (k : String) (v : α)
    (h : getAssoc l k = some v) : setAssoc l k v = l := by
  induction l with
  | nil => simp [getAssoc] at h
  | cons hd t ih =>
    obtain ⟨k', w⟩ := hd
    by_cases hk : k' = k
    · subst hk
      simp [getAssoc] at h
      simp [setAssoc, h]
    · simp [getAssoc, hk] at h
      simp [setAssoc, hk, ih h]

theorem mem_fst_setAssoc {α : Type} (l : List (String × α)) (k : String) (v : α) :
    k ∈ (setAssoc l k v).map Prod.fst := by
  induction l with
  | nil => simp [setAssoc]
  | cons hd t ih =>
    obtain ⟨k', w⟩ := hd
    by_cases hk : k' = k
    · simp [setAssoc, hk]
    · simp [setAssoc, hk]
      right
      simpa using ih

theorem recordChange_files (st : St) (p lbl : String) :
    (recordChange st p lbl).files = st.files := by
  unfold recordChange
  cases getAssoc st.files p with
  | none => rfl
  | some c => by_cases h : optFileBeq (some c) (getAssoc st.committed p) = true <;> simp [h]

theorem recordChange_tmp (st : St) (p lbl : String) :
    (recordChange st p lbl).tmp = st.tmp := by
  unfold recordChange
  cases getAssoc st.files p with
  | none => rfl
  | some c => by_cases h : optFileBeq (some c) (getAssoc st.committed p) = true <;> simp [h]

theorem recordChange_dirtOut (st : St) (p lbl : String) :
    (recordChange st p lbl).dirtOut = st.dirtOut := by
  unfold recordChange
  cases getAssoc st.files p with
  | none => rfl
  | some c => by_cases h : optFileBeq (some c) (getAssoc st.committed p) = true <;> simp [h]

theorem recordChange_committed_ne (st : St) (p lbl q : String) (h : q ≠ p) :
    getAssoc (recordChange st p lbl).committed q = getAssoc st.committed q := by
  unfold recordChange
  cases getAssoc st.files p with
  | none => rfl
  | some c =>
    by_cases hb : optFileBeq (some c) (getAssoc st.committed p) = true
    · simp [hb]
    · simp [hb, getAssoc_setAssoc_ne _ _ _ _ h]

/-- Committing a file whose working content equals the committed content is a
no-op (nothing is staged, `git commit` creates nothing). -/
theorem recordChange_noop (st : St) (p lbl : String) (c : FileData)
    (hf : getAssoc st.files p = some c) (hc : getAssoc st.committed p = some c) :
    recordChange st p lbl = st := by
  unfold recordChange
  simp [hf, hc, optFileBeq, fileBeq_self]

/-- After a commit of an existing working file, the committed content at that
path is git-equal to the working content. -/
theorem recordChange_committed_beq (st : St) (p lbl : String) (c : FileData)
    (hf : getAssoc st.files p = some c) :
    optFileBeq (some c) (getAssoc (recordChange st p lbl).committed p) = true := by
  simp only [recordChange, hf]
  by_cases hb : optFileBeq (some c) (getAssoc st.committed p) = true
  · rw [if_pos hb]
    exact hb
  · rw [if_neg hb]
    simp [getAssoc_setAssoc_self, optFileBeq, fileBeq_self]

/-- Committing a file whose working content is git-equal to the committed
content is a no-op. -/
theorem recordChange_noop_beq (st : St) (p lbl : String) (c : FileData)
    (hf : getAssoc st.files p = some c)
    (hc : optFileBeq (some c) (getAssoc st.committed p) = true) :
    recordChange st p lbl = st := by
  simp only [recordChange, hf]
  rw [if_pos hc]

theorem setAssoc_ne_nil {α : Type} (l : List (String × α)) (k : String) (v : α) :
    setAssoc l k v ≠ [] := by
  cases l with
  | nil => simp [setAssoc]
  | cons hd t =>
    obtain ⟨k', w⟩ := hd
    by_cases hk : k' = k <;> simp [setAssoc, hk]

theorem dictGet_setAssoc_ne (kvs : List (String × PyVal)) (k q : String) (v : PyVal)
    (h : q ≠ k) : dictGet (setAssoc kvs k v) q = dictGet kvs q := by
  unfold dictGet
  rw [getAssoc_setAssoc_ne _ _ _ _ h]

theorem dictGetD_setAssoc_ne (kvs : List (String × PyVal)) (k q : String) (v d : PyVal)
    (h : q ≠ k) : dictGetD (setAssoc kvs k v) q d = dictGetD kvs q d := by
  unfold dictGetD
  rw [getAssoc_setAssoc_ne _ _ _ _ h]

theorem truthy_dict_setAssoc (kvs : List (String × PyVal)) (k : String) (v : PyVal) :
    PyVal.truthy (.dict (setAssoc kvs k v)) = true := by
  simp [PyVal.truthy, List.isEmpty_iff, setAssoc_ne_nil]

/-- Setting `sha256` changes none of the fields an index entry reads. -/
theorem indexEntry_setAssoc_sha (mkvs : List (String × PyVal)) (v : PyVal) :
    indexEntry (.dict (setAssoc mkvs "sha256" v)) = indexEntry (.dict mkvs) := by
  simp only [indexEntry]
  rw [dictGet_setAssoc_ne _ _ _ _ (by decide),
      dictGetD_setAssoc_ne _ _ _ _ _ (by decide),
      dictGetD_setAssoc_ne _ _ _ _ _ (by decide)]

theorem commitRecord_files (tdir : String) (st : St) (nm ver rec' : PyVal) :
    (commitRecord tdir st nm ver rec').files =
      setAssoc st.files (recPath tdir nm) (FileData.json rec') := by
  simp [commitRecord, recordChange_files]

theorem commitRecord_files_self (tdir : String) (st : St) (nm ver rec' : PyVal) :
    getAssoc (commitRecord tdir st nm ver rec').files (recPath tdir nm) =
      some (FileData.json rec') := by
  rw [commitRecord_files, getAssoc_setAssoc_self]

theorem commitRecord_files_ne (tdir : String) (st : St) (nm ver rec' : PyVal) (q : String)
    (h : q ≠ recPath tdir nm) :
    getAssoc (commitRecord tdir st nm ver rec').files q = getAssoc st.files q := by
  rw [commitRecord_files, getAssoc_setAssoc_ne _ _ _ _ h]

theorem commitRecord_committed_ne (tdir : String) (st : St) (nm ver rec' : PyVal) (q : String)
    (h : q ≠ recPath tdir nm) :
    getAssoc (commitRecord tdir st nm ver rec').committed q = getAssoc st.committed q := by
  simp only [commitRecord]
  rw [recordChange_committed_ne _ _ _ _ h]

theorem commitRecord_committed_beq (tdir : String) (st : St) (nm ver rec' : PyVal) :
    optFileBeq (some (FileData.json rec'))
      (getAssoc (commitRecord tdir st nm ver rec').committed (recPath tdir nm)) = true := by
  simp only [commitRecord]
  exact recordChange_committed_beq _ _ _ _ (by rw [getAssoc_setAssoc_self])

theorem commitRecord_tmp (tdir : String) (st : St) (nm ver rec' : PyVal) :
    (commitRecord tdir st nm ver rec').tmp = st.tmp := by
  simp [commitRecord, recordChange_tmp]

theorem commitRecord_dirtOut (tdir : String) (st : St) (nm ver rec' : PyVal) :
    (commitRecord tdir st nm ver rec').dirtOut = st.dirtOut := by
  simp [commitRecord, recordChange_dirtOut]

theorem process_fetchfail (tdir : String) (env : Env) (st : St) (src : FileData)
    (h : fetchStage env src = Option.none) :
    process_plugin tdir env st src = ((false, Option.none), st) := by
  simp [process_plugin, h]

theorem process_unchanged (tdir : String) (env : Env) (st : St) (src : FileData)
    (mkvs : List (String × PyVal)) (h : fetchStage env src = some mkvs)
    (hv : check_version_changed tdir st (dictGet mkvs "name") (dictGet mkvs "version") = false) :
    process_plugin tdir env st src = ((false, some (.dict mkvs)), st) := by
  simp [process_plugin, h, hv]

theorem process_changed_ok (tdir : String) (env : Env) (st : St) (src : FileData)
    (mkvs : List (String × PyVal)) (durl : String) (bytes : List Nat)
    (h : fetchStage env src = some mkvs)
    (hv : check_version_changed tdir st (dictGet mkvs "name") (dictGet mkvs "version") = true)
    (hd : dictGet mkvs "downloadUrl" = .str durl)
    (ha : env.artifacts durl = some bytes) :
    process_plugin tdir env st src =
      ((true, some (.dict (setAssoc mkvs "sha256" (.str (env.hashHex bytes))))),
        commitRecord tdir { st with tmp := Option.none } (dictGet mkvs "name")
          (dictGet mkvs "version")
          (.dict (setAssoc mkvs "sha256" (.str (env.hashHex bytes))))) := by
  simp [process_plugin, h, hv, downloadStage, hd, ha]

theorem process_changed_badurl (tdir : String) (env : Env) (st : St) (src : FileData)
    (mkvs : List (String × PyVal)) (h : fetchStage env src = some mkvs)
    (hv : check_version_changed tdir st (dictGet mkvs "name") (dictGet mkvs "version") = true)
    (hd : ∀ s : String, dictGet mkvs "downloadUrl" ≠ .str s) :
    process_plugin tdir env st src = ((false, Option.none), st) := by
  simp only [process_plugin, h, hv, if_true, downloadStage]

theorem process_changed_badart (tdir : String) (env : Env) (st : St) (src : FileData)
    (mkvs : List (String × PyVal)) (durl : String) (h : fetchStage env src = some mkvs)
    (hv : check_version_changed tdir st (dictGet mkvs "name") (dictGet mkvs "version") = true)
    (hd : dictGet mkvs "downloadUrl" = .str durl)
    (ha : env.artifacts durl = Option.none) :
    process_plugin tdir env st src = ((false, Option.none), st) := by
  simp [process_plugin, h, hv, downloadStage, hd, ha]

theorem process_dirtOut (tdir : String) (env : Env) (st : St) (src : FileData) :
    (process_plugin tdir env st src).2.dirtOut = st.dirtOut := by
  cases hf : fetchStage env src with
  | none => rw [process_fetchfail _ _ _ _ hf]
  | some mkvs =>
    by_cases hv : check_version_changed tdir st (dictGet mkvs "name") (dictGet mkvs "version") = true
    · cases hu : dictGet mkvs "downloadUrl" with
      | str durl =>
        cases ha : env.artifacts durl with
        | none => rw [process_changed_badart _ _ _ _ _ _ hf hv hu ha]
        | some bytes =>
          rw [process_changed_ok _ _ _ _ _ _ _ hf hv hu ha]
          rw [commitRecord_dirtOut]
      | null => rw [process_changed_badurl _ _ _ _ _ hf hv (by simp [hu])]
      | bool b => rw [process_changed_badurl _ _ _ _ _ hf hv (by simp [hu])]
      | int n => rw [process_changed_badurl _ _ _ _ _ hf hv (by simp [hu])]
      | list xs => rw [process_changed_badurl _ _ _ _ _ hf hv (by simp [hu])]
      | dict kvs => rw [process_changed_badurl _ _ _ _ _ hf hv (by simp [hu])]
    · rw [process_unchanged _ _ _ _ _ hf (by simpa using hv)]

/-- `process_plugin` touches the filesystem and committed state only at the
record path of its own source. -/
theorem process_frame (tdir : String) (env : Env) (st : St) (src : FileData) (q : String)
    (hq : ∀ p, srcKey tdir env src = some p → q ≠ p) :
    getAssoc (process_plugin tdir env st src).2.files q = getAssoc st.files q ∧
    getAssoc (process_plugin tdir env st src).2.committed q = getAssoc st.committed q := by
  cases hf : fetchStage env src with
  | none => rw [process_fetchfail _ _ _ _ hf]; exact ⟨rfl, rfl⟩
  | some mkvs =>
    have hp : q ≠ recPath tdir (dictGet mkvs "name") := hq _ (by simp [srcKey, hf])
    by_cases hv : check_version_changed tdir st (dictGet mkvs "name") (dictGet mkvs "version") = true
    · cases hu : dictGet mkvs "downloadUrl" with
      | str durl =>
        cases ha : env.artifacts durl with
        | none => rw [process_changed_badart _ _ _ _ _ _ hf hv hu ha]; exact ⟨rfl, rfl⟩
        | some bytes =>
          rw [process_changed_ok _ _ _ _ _ _ _ hf hv hu ha]
          exact ⟨commitRecord_files_ne _ _ _ _ _ _ hp, commitRecord_committed_ne _ _ _ _ _ _ hp⟩
      | null => rw [process_changed_badurl _ _ _ _ _ hf hv (by simp [hu])]; exact ⟨rfl, rfl⟩
      | bool b => rw [process_changed_badurl _ _ _ _ _ hf hv (by simp [hu])]; exact ⟨rfl, rfl⟩
      | int n => rw [process_changed_badurl _ _ _ _ _ hf hv (by simp [hu])]; exact ⟨rfl, rfl⟩
      | list xs => rw [process_changed_badurl _ _ _ _ _ hf hv (by simp [hu])]; exact ⟨rfl, rfl⟩
      | dict kvs => rw [process_changed_badurl _ _ _ _ _ hf hv (by simp [hu])]; exact ⟨rfl, rfl⟩
    · rw [process_unchanged _ _ _ _ _ hf (by simpa using hv)]; exact ⟨rfl, rfl⟩

/-- A manifest that survives `fetchStage` passed the `if not manifest` check. -/
theorem fetchStage_truthy (env : Env) (src : FileData) (mkvs : List (String × PyVal))
    (h : fetchStage env src = some mkvs) : PyVal.truthy (.dict mkvs) = true := by
  cases src with
  | invalid => simp [fetchStage] at h
  | json sd =>
    cases sd with
    | null => simp [fetchStage] at h
    | bool b => simp [fetchStage] at h
    | int n => simp [fetchStage] at h
    | str s => simp [fetchStage] at h
    | list xs => simp [fetchStage] at h
    | dict skvs =>
      simp only [fetchStage] at h
      split at h
      · simp at h
      · next m heq =>
        split at h
        · next ht =>
          split at h
          · next mkvs' =>
            split at h
            · cases h
              exact ht
            · simp at h
          · simp at h
        · simp at h

theorem entryOf_fetched (env : Env) (src : FileData) (mkvs : List (String × PyVal))
    (h : fetchStage env src = some mkvs) :
    entryOf (some (.dict mkvs)) = [indexEntry (.dict mkvs)] := by
  simp [entryOf, fetchStage_truthy env src mkvs h]

theorem entryOf_record (mkvs : List (String × PyVal)) (v : PyVal) :
    entryOf (some (.dict (setAssoc mkvs "sha256" v))) = [indexEntry (.dict mkvs)] := by
  simp [entryOf, truthy_dict_setAssoc, indexEntry_setAssoc_sha]

/-- C1: for a source whose manifest fetch succeeds (truthy JSON object), whose
manifest `name` equals the source's declared `name`, and whose existing record
parses to an object with a `version` exactly equal (Python `==`) to the
fetched manifest's `version`, `process_plugin` returns `(False, manifest)`
with the state untouched — no artifact fetch, no record write, no commit —
and the batch loop still prepends exactly the index entry derived from the
fetched manifest while leaving the rest of the run unaffected. -/
theorem c1_unchanged_fast_path (tdir : String) (env : Env) (st : St) (src : FileData)
    (skvs mkvs rkvs : List (String × PyVal))
    (hsrc : src = .json (.dict skvs))
    (hfetch : download_manifest env (dictGet skvs "manifestUrl") = some (.dict mkvs))
    (htruthy : PyVal.truthy (.dict mkvs) = true)
    (hname : PyVal.beq (dictGet mkvs "name") (dictGet skvs "name") = true)
    (hrec : getAssoc st.files (recPath tdir (dictGet mkvs "name")) = some (.json (.dict rkvs)))
    (hver : PyVal.beq (dictGetD rkvs "version" (.str "")) (dictGet mkvs "version") = true) :
    process_plugin tdir env st src = ((false, some (.dict mkvs)), st) ∧
    ∀ rest : List FileData,
      runPlugins tdir env st (src :: rest) =
        (indexEntry (.dict mkvs) :: (runPlugins tdir env st rest).1,
         (runPlugins tdir env st rest).2) := by
  have hfs : fetchStage env src = some mkvs := by
    subst hsrc
    simp [fetchStage, hfetch, htruthy, hname]
  have hvc : check_version_changed tdir st (dictGet mkvs "name") (dictGet mkvs "version") = false := by
    simp [check_version_changed, hrec, versionChangedFile, hver]
  have hp := process_unchanged tdir env st src mkvs hfs hvc
  refine ⟨hp, fun rest => ?_⟩
  simp [runPlugins, hp, entryOf, htruthy]

theorem c1_unchanged_fast_path_witness :
    process_plugin "plugins" envW stRecW srcW = ((false, some (.dict mkvsW)), stRecW) ∧
    ∀ rest : List FileData,
      runPlugins "plugins" envW stRecW (srcW :: rest) =
        (indexEntry (.dict mkvsW) :: (runPlugins "plugins" envW stRecW rest).1,
         (runPlugins "plugins" envW stRecW rest).2) :=
  c1_unchanged_fast_path "plugins" envW stRecW srcW skvsW mkvsW rkvsW rfl rfl rfl rfl rfl rfl

/-- C3: for a source whose fetched manifest is a truthy JSON object whose
`name` differs from the source's declared `name`, `process_plugin` returns
`(False, None)` with the state untouched (no record write), and the batch
loop contributes no index entry for it, whatever the version state (no
hypothesis on any record is needed). -/
theorem c3_name_mismatch (tdir : String) (env : Env) (st : St) (src : FileData)
    (skvs mkvs : List (String × PyVal))
    (hsrc : src = .json (.dict skvs))
    (hfetch : download_manifest env (dictGet skvs "manifestUrl") = some (.dict mkvs))
    (htruthy : PyVal.truthy (.dict mkvs) = true)
    (hname : PyVal.beq (dictGet mkvs "name") (dictGet skvs "name") = false) :
    process_plugin tdir env st src = ((false, Option.none), st) ∧
    ∀ rest : List FileData,
      runPlugins tdir env st (src :: rest) = runPlugins tdir env st rest := by
  have hfs : fetchStage env src = Option.none := by
    subst hsrc
    simp [fetchStage, hfetch, htruthy, hname]
  have hp := process_fetchfail tdir env st src hfs
  refine ⟨hp, fun rest => ?_⟩
  simp [runPlugins, hp, entryOf]

theorem c3_name_mismatch_witness :
    process_plugin "plugins" envW stEmpty srcM = ((false, Option.none), stEmpty) ∧
    ∀ rest : List FileData,
      runPlugins "plugins" envW stEmpty (srcM :: rest) = runPlugins "plugins" envW stEmpty rest :=
  c3_name_mismatch "plugins" envW stEmpty srcM skvsM mkvsW rfl rfl rfl rfl

/-- C8: a manifest fetch that succeeds and parses but yields a falsy JSON
value (e.g. the empty object) makes `process_plugin` return `(False, None)`
with the state untouched — bitwise the same outcome as a failed fetch: no
identity check result is ever consulted, no record is written, and the batch
loop contributes no index entry. -/
theorem c8_falsy_manifest (tdir : String) (env : Env) (st : St) (src : FileData)
    (skvs : List (String × PyVal)) (m : PyVal)
    (hsrc : src = .json (.dict skvs))
    (hfetch : download_manifest env (dictGet skvs "manifestUrl") = some m)
    (hfalsy : m.truthy = false) :
    process_plugin tdir env st src = ((false, Option.none), st) ∧
    ∀ rest : List FileData,
      runPlugins tdir env st (src :: rest) = runPlugins tdir env st rest := by
  have hfs : fetchStage env src = Option.none := by
    subst hsrc
    simp [fetchStage, hfetch, hfalsy]
  have hp := process_fetchfail tdir env st src hfs
  refine ⟨hp, fun rest => ?_⟩
  simp [runPlugins, hp, entryOf]

theorem c8_falsy_manifest_witness :
    process_plugin "plugins" envE stEmpty srcW = ((false, Option.none), stEmpty) ∧
    ∀ rest : List FileData,
      runPlugins "plugins" envE stEmpty (srcW :: rest) = runPlugins "plugins" envE stEmpty rest :=
  c8_falsy_manifest "plugins" envE stEmpty srcW skvsW (.dict []) rfl rfl rfl

/-- C2: for a source that passes fetch, truthiness and identity checks, whose
version is considered changed, and whose artifact download succeeds, the
state after `process_plugin` stores, at the plugin's record path, exactly the
fetched manifest enriched with a `sha256` field holding the hex digest of
precisely the bytes served at the manifest's `downloadUrl`; the write is a
whole-file replacement of whatever was there, performed through
`commitRecord`, so the stored digest always belongs to the stored version. -/
theorem c2_record_hash (tdir : String) (env : Env) (st : St) (src : FileData)
    (skvs mkvs : List (String × PyVal)) (durl : String) (bytes : List Nat)
    (hsrc : src = .json (.dict skvs))
    (hfetch : download_manifest env (dictGet skvs "manifestUrl") = some (.dict mkvs))
    (htruthy : PyVal.truthy (.dict mkvs) = true)
    (hname : PyVal.beq (dictGet mkvs "name") (dictGet skvs "name") = true)
    (hch : check_version_changed tdir st (dictGet mkvs "name") (dictGet mkvs "version") = true)
    (hdu : dictGet mkvs "downloadUrl" = .str durl)
    (hart : env.artifacts durl = some bytes) :
    process_plugin tdir env st src =
      ((true, some (.dict (setAssoc mkvs "sha256" (.str (env.hashHex bytes))))),
        commitRecord tdir { st with tmp := Option.none } (dictGet mkvs "name")
          (dictGet mkvs "version")
          (.dict (setAssoc mkvs "sha256" (.str (env.hashHex bytes))))) ∧
    (process_plugin tdir env st src).2.files =
      setAssoc st.files (recPath tdir (dictGet mkvs "name"))
        (FileData.json (.dict (setAssoc mkvs "sha256" (.str (env.hashHex bytes))))) := by
  have hfs : fetchStage env src = some mkvs := by
    subst hsrc
    simp [fetchStage, hfetch, htruthy, hname]
  have hp := process_changed_ok tdir env st src mkvs durl bytes hfs hch hdu hart
  refine ⟨hp, ?_⟩
  rw [hp, commitRecord_files]

theorem c2_record_hash_witness :
    process_plugin "plugins" envW stEmpty srcW =
      ((true, some (.dict (setAssoc mkvsW "sha256" (.str (envW.hashHex [7]))))),
        commitRecord "plugins" { stEmpty with tmp := Option.none } (dictGet mkvsW "name")
          (dictGet mkvsW "version")
          (.dict (setAssoc mkvsW "sha256" (.str (envW.hashHex [7]))))) ∧
    (process_plugin "plugins" envW stEmpty srcW).2.files =
      setAssoc stEmpty.files (recPath "plugins" (dictGet mkvsW "name"))
        (FileData.json (.dict (setAssoc mkvsW "sha256" (.str (envW.hashHex [7]))))) :=
  c2_record_hash "plugins" envW stEmpty srcW skvsW mkvsW "d" [7] rfl rfl rfl rfl rfl rfl rfl

/-- C10: a source file with no `name` field whose fetched manifest also has
no `name` field passes the identity check (`None == None`); when the version
is considered changed and the artifact download succeeds, the plugin is
persisted at `f"None.json"` under the target directory and its index entry
carries a `null` name — nothing rejects the misconfiguration. -/
theorem c10_null_name (tdir : String) (env : Env) (st : St) (src : FileData)
    (skvs mkvs : List (String × PyVal)) (durl : String) (bytes : List Nat)
    (hsrc : src = .json (.dict skvs))
    (hsname : dictGet skvs "name" = PyVal.null)
    (hfetch : download_manifest env (dictGet skvs "manifestUrl") = some (.dict mkvs))
    (htruthy : PyVal.truthy (.dict mkvs) = true)
    (hmname : dictGet mkvs "name" = PyVal.null)
    (hch : check_version_changed tdir st PyVal.null (dictGet mkvs "version") = true)
    (hdu : dictGet mkvs "downloadUrl" = .str durl)
    (hart : env.artifacts durl = some bytes) :
    recFileName PyVal.null = "None.json" ∧
    process_plugin tdir env st src =
      ((true, some (.dict (setAssoc mkvs "sha256" (.str (env.hashHex bytes))))),
        commitRecord tdir { st with tmp := Option.none } PyVal.null
          (dictGet mkvs "version")
          (.dict (setAssoc mkvs "sha256" (.str (env.hashHex bytes))))) ∧
    (process_plugin tdir env st src).2.files =
      setAssoc st.files (tdir ++ "/None.json")
        (FileData.json (.dict (setAssoc mkvs "sha256" (.str (env.hashHex bytes))))) ∧
    indexEntry (.dict (setAssoc mkvs "sha256" (.str (env.hashHex bytes)))) =
      .dict [("name", PyVal.null),
             ("desc", dictGetD mkvs "description" (.str "")),
             ("homepage", dictGetD mkvs "homepage" (.str ""))] ∧
    entryOf (some (.dict (setAssoc mkvs "sha256" (.str (env.hashHex bytes))))) =
      [indexEntry (.dict (setAssoc mkvs "sha256" (.str (env.hashHex bytes))))] := by
  have hfs : fetchStage env src = some mkvs := by
    subst hsrc
    simp [fetchStage, hfetch, htruthy, hmname, hsname, PyVal.beq]
  have hch' : check_version_changed tdir st (dictGet mkvs "name") (dictGet mkvs "version") = true := by
    rw [hmname]
    exact hch
  have hp := process_changed_ok tdir env st src mkvs durl bytes hfs hch' hdu hart
  rw [hmname] at hp
  have h1 : recPath tdir PyVal.null = tdir ++ "/None.json" := by
    unfold recPath recFileName
    rw [String.append_assoc]
    exact rfl
  refine ⟨rfl, hp, ?_, ?_, ?_⟩
  · rw [hp, commitRecord_files, h1]
  · rw [indexEntry_setAssoc_sha]
    simp [indexEntry, hmname]
  · simp [entryOf, truthy_dict_setAssoc]

def skvsN : List (String × PyVal) := [("manifestUrl", .str "un")]

def mkvsN : List (String × PyVal) :=
  [("version", .str "1"), ("downloadUrl", .str "dn")]

def srcN : FileData := .json (.dict skvsN)

def envN : Env :=
  { manifests := fun u => if u = "un" then some (.dict mkvsN) else Option.none
    artifacts := fun u => if u = "dn" then some [3] else Option.none
    hashHex := fun _ => "h" }

theorem c10_null_name_witness :
    recFileName PyVal.null = "None.json" ∧
    process_plugin "plugins" envN stEmpty srcN =
      ((true, some (.dict (setAssoc mkvsN "sha256" (.str (envN.hashHex [3]))))),
        commitRecord "plugins" { stEmpty with tmp := Option.none } PyVal.null
          (dictGet mkvsN "version")
          (.dict (setAssoc mkvsN "sha256" (.str (envN.hashHex [3]))))) ∧
    (process_plugin "plugins" envN stEmpty srcN).2.files =
      setAssoc stEmpty.files ("plugins" ++ "/None.json")
        (FileData.json (.dict (setAssoc mkvsN "sha256" (.str (envN.hashHex [3]))))) ∧
    indexEntry (.dict (setAssoc mkvsN "sha256" (.str (envN.hashHex [3])))) =
      .dict [("name", PyVal.null),
             ("desc", dictGetD mkvsN "description" (.str "")),
             ("homepage", dictGetD mkvsN "homepage" (.str ""))] ∧
    entryOf (some (.dict (setAssoc mkvsN "sha256" (.str (envN.hashHex [3]))))) =
      [indexEntry (.dict (setAssoc mkvsN "sha256" (.str (envN.hashHex [3]))))] :=
  c10_null_name "plugins" envN stEmpty srcN skvsN mkvsN "dn" [3]
    rfl rfl rfl rfl rfl rfl rfl rfl

/-- C5: an exhaustive per-plugin trichotomy.  Every failure (unparsable or
non-dict source, failed/falsy/non-dict manifest fetch, identity mismatch,
non-string download URL, failed artifact download) is absorbed at the plugin
boundary as `(False, None)` with the state untouched — no record write, and
`entryOf None = []` so no index entry; an unchanged version touches nothing
and reports the manifest; otherwise the plugin fully completes: record
written and committed together with its index entry.  The loop equation
shows the batch always continues with the remaining sources, whatever the
outcome, so one plugin's failure never affects another's processing. -/
theorem c5_plugin_boundary (tdir : String) (env : Env) (st : St) (src : FileData) :
    (process_plugin tdir env st src = ((false, Option.none), st) ∨
      (∃ mkvs, fetchStage env src = some mkvs ∧
        process_plugin tdir env st src = ((false, some (.dict mkvs)), st)) ∨
      (∃ mkvs durl bytes,
        fetchStage env src = some mkvs ∧
        dictGet mkvs "downloadUrl" = .str durl ∧
        env.artifacts durl = some bytes ∧
        process_plugin tdir env st src =
          ((true, some (.dict (setAssoc mkvs "sha256" (.str (env.hashHex bytes))))),
            commitRecord tdir { st with tmp := Option.none } (dictGet mkvs "name")
              (dictGet mkvs "version")
              (.dict (setAssoc mkvs "sha256" (.str (env.hashHex bytes))))))) ∧
    ∀ rest : List FileData,
      runPlugins tdir env st (src :: rest) =
        (entryOf (process_plugin tdir env st src).1.2 ++
            (runPlugins tdir env (process_plugin tdir env st src).2 rest).1,
          (runPlugins tdir env (process_plugin tdir env st src).2 rest).2) := by
  constructor
  · cases hf : fetchStage env src with
    | none => exact Or.inl (process_fetchfail tdir env st src hf)
    | some mkvs =>
      by_cases hv : check_version_changed tdir st (dictGet mkvs "name") (dictGet mkvs "version") = true
      · cases hu : dictGet mkvs "downloadUrl" with
        | str durl =>
          cases ha : env.artifacts durl with
          | none => exact Or.inl (process_changed_badart tdir env st src mkvs durl hf hv hu ha)
          | some bytes =>
            exact Or.inr (Or.inr ⟨mkvs, durl, bytes, rfl, hu, ha,
              process_changed_ok tdir env st src mkvs durl bytes hf hv hu ha⟩)
        | null => exact Or.inl (process_changed_badurl tdir env st src mkvs hf hv (by simp [hu]))
        | bool b => exact Or.inl (process_changed_badurl tdir env st src mkvs hf hv (by simp [hu]))
        | int n => exact Or.inl (process_changed_badurl tdir env st src mkvs hf hv (by simp [hu]))
        | list xs => exact Or.inl (process_changed_badurl tdir env st src mkvs hf hv (by simp [hu]))
        | dict kvs => exact Or.inl (process_changed_badurl tdir env st src mkvs hf hv (by simp [hu]))
      · exact Or.inr (Or.inl ⟨mkvs, rfl, process_unchanged tdir env st src mkvs hf (by simpa using hv)⟩)
  · intro rest
    simp [runPlugins]

/-- Per source, the spec's reconciliation outcome agrees with the code: same
successor state, and the spec's zero-or-one entry equals what the loop
appends. -/
theorem specStep_agree (tdir : String) (env : Env) (st : St) (src : FileData) :
    (specStep tdir env st src).2 = (process_plugin tdir env st src).2 ∧
    (match (specStep tdir env st src).1 with
      | some e => [e]
      | Option.none => []) = entryOf (process_plugin tdir env st src).1.2 := by
  cases hf : fetchStage env src with
  | none =>
    rw [process_fetchfail tdir env st src hf]
    simp [specStep, hf, entryOf]
  | some mkvs =>
    by_cases hv : check_version_changed tdir st (dictGet mkvs "name") (dictGet mkvs "version") = true
    · cases hu : dictGet mkvs "downloadUrl" with
      | str durl =>
        cases ha : env.artifacts durl with
        | none =>
          rw [process_changed_badart tdir env st src mkvs durl hf hv hu ha]
          simp [specStep, hf, hv, hu, ha, entryOf]
        | some bytes =>
          rw [process_changed_ok tdir env st src mkvs durl bytes hf hv hu ha]
          simp [specStep, hf, hv, hu, ha, entryOf, truthy_dict_setAssoc]
      | null =>
        rw [process_changed_badurl tdir env st src mkvs hf hv (by simp [hu])]
        simp [specStep, hf, hv, hu, entryOf]
      | bool b =>
        rw [process_changed_badurl tdir env st src mkvs hf hv (by simp [hu])]
        simp [specStep, hf, hv, hu, entryOf]
      | int n =>
        rw [process_changed_badurl tdir env st src mkvs hf hv (by simp [hu])]
        simp [specStep, hf, hv, hu, entryOf]
      | list xs =>
        rw [process_changed_badurl tdir env st src mkvs hf hv (by simp [hu])]
        simp [specStep, hf, hv, hu, entryOf]
      | dict kvs =>
        rw [process_changed_badurl tdir env st src mkvs hf hv (by simp [hu])]
        simp [specStep, hf, hv, hu, entryOf]
    · have hv' : check_version_changed tdir st (dictGet mkvs "name") (dictGet mkvs "version") = false := by
        simpa using hv
      rw [process_unchanged tdir env st src mkvs hf hv']
      simp [specStep, hf, hv', entryOf, fetchStage_truthy env src mkvs hf]

/-- The loop's accumulated entries equal the spec's per-source
characterization, from any starting state. -/
theorem runPlugins_entries_spec (tdir : String) (env : Env) :
    ∀ (L : List FileData) (st : St),
      (runPlugins tdir env st L).1 = specIndex tdir env st L := by
  intro L
  induction L with
  | nil => intro st; rfl
  | cons src rest ih =>
    intro st
    obtain ⟨hst, hent⟩ := specStep_agree tdir env st src
    simp only [runPlugins, specIndex]
    rw [← hst, hent.symm, ih]

/-- C4: after a run, the index file holds exactly the spec-predicted list:
one entry per source whose manifest fetch succeeded and passed the identity
check and which survived the artifact step when a download was needed, in
lexicographic order of the source filenames (the glob result is sorted, and
`insertionSort` is a sorted permutation of the declared sources); sources
that failed contribute nothing, and the file is wholly replaced whatever it
contained before. -/
theorem c4_index_contents (tdir : String) (env : Env) (st : St)
    (sources : List (String × FileData)) :
    getAssoc (update_all_plugins tdir env st sources).files (idxPath tdir) =
      some (FileData.json (.list (specIndex tdir env st (sortSources sources)))) ∧
    List.Sorted sourceLe (List.insertionSort sourceLe sources) ∧
    (List.insertionSort sourceLe sources).Perm sources ∧
    sortSources sources = (List.insertionSort sourceLe sources).map Prod.snd := by
  refine ⟨?_, List.sorted_insertionSort sourceLe sources,
    List.perm_insertionSort sourceLe sources, rfl⟩
  have hfiles : (update_all_plugins tdir env st sources).files =
      (preCommitState tdir env st sources).files := by
    simp only [update_all_plugins, preCommitState]
    split
    · rw [recordChange_files]
    · rfl
  rw [hfiles]
  unfold preCommitState writeIndexSt
  simp only
  rw [getAssoc_setAssoc_self, runPlugins_entries_spec]

/-- C9 counterexample: a record that exists, parses, and lacks a `version`
field, while the fetched manifest's version is the empty string.  The stored
version is read as `''`, compares equal to the fetched `""`, and the plugin
is treated as unchanged: no artifact download, no record overwrite, no
change recording — against the claim that such a record always forces a full
update. -/
theorem c9_counterexample :
    getAssoc stC9.files "plugins/p.json" = some (.json (.dict [("name", .str "p")])) ∧
    getAssoc [(("name" : String), PyVal.str "p")] "version" = Option.none ∧
    check_version_changed "plugins" stC9 (.str "p") (.str "") = false ∧
    process_plugin "plugins" envC9 stC9 srcC9 = ((false, some (.dict mkvsC9)), stC9) :=
  ⟨rfl, rfl, rfl, rfl⟩

/-- C9 (amended): for a plugin whose record file exists but either fails to
parse as JSON, or parses to an object lacking a `version` field *provided the
fetched version is not the empty string* (the stored version is read as `''`
and compared against the fetched version, so a fetched `""` compares equal
and skips the update), the version is considered changed and the full update
— artifact download, hash, wholesale record overwrite, change recording —
proceeds rather than the run failing or skipping the plugin. -/
theorem c9_amended_bad_record_updates (tdir : String) (env : Env) (st : St) (src : FileData)
    (skvs mkvs : List (String × PyVal)) (durl : String) (bytes : List Nat)
    (hsrc : src = .json (.dict skvs))
    (hfetch : download_manifest env (dictGet skvs "manifestUrl") = some (.dict mkvs))
    (htruthy : PyVal.truthy (.dict mkvs) = true)
    (hname : PyVal.beq (dictGet mkvs "name") (dictGet skvs "name") = true)
    (hbad : getAssoc st.files (recPath tdir (dictGet mkvs "name")) = some FileData.invalid ∨
      (∃ rkvs, getAssoc st.files (recPath tdir (dictGet mkvs "name")) = some (.json (.dict rkvs)) ∧
        getAssoc rkvs "version" = Option.none ∧
        PyVal.beq (.str "") (dictGet mkvs "version") = false))
    (hdu : dictGet mkvs "downloadUrl" = .str durl)
    (hart : env.artifacts durl = some bytes) :
    check_version_changed tdir st (dictGet mkvs "name") (dictGet mkvs "version") = true ∧
    process_plugin tdir env st src =
      ((true, some (.dict (setAssoc mkvs "sha256" (.str (env.hashHex bytes))))),
        commitRecord tdir { st with tmp := Option.none } (dictGet mkvs "name")
          (dictGet mkvs "version")
          (.dict (setAssoc mkvs "sha256" (.str (env.hashHex bytes))))) := by
  have hfs : fetchStage env src = some mkvs := by
    subst hsrc
    simp [fetchStage, hfetch, htruthy, hname]
  have hch : check_version_changed tdir st (dictGet mkvs "name") (dictGet mkvs "version") = true := by
    unfold check_version_changed
    rcases hbad with hinv | ⟨rkvs, hrec, hmiss, hne⟩
    · rw [hinv]
      rfl
    · rw [hrec]
      simp [versionChangedFile, dictGetD, hmiss, hne]
  exact ⟨hch, process_changed_ok tdir env st src mkvs durl bytes hfs hch hdu hart⟩

theorem c9_amended_bad_record_updates_witness :
    check_version_changed "plugins" stInv (dictGet mkvsW "name") (dictGet mkvsW "version") = true ∧
    process_plugin "plugins" envW stInv srcW =
      ((true, some (.dict (setAssoc mkvsW "sha256" (.str (envW.hashHex [7]))))),
        commitRecord "plugins" { stInv with tmp := Option.none } (dictGet mkvsW "name")
          (dictGet mkvsW "version")
          (.dict (setAssoc mkvsW "sha256" (.str (envW.hashHex [7]))))) :=
  c9_amended_bad_record_updates "plugins" envW stInv srcW skvsW mkvsW "d" [7]
    rfl rfl rfl rfl (Or.inl rfl) rfl rfl

/-- C6 counterexample: run with target directory `"out"`.  The index file is
written and differs from its (absent) committed state, yet no change labeled
"Update plugin index" is recorded, because line 195 greps the porcelain
output for the hardcoded substring "plugins/index.json" while the pending
path is `out/index.json`.  The claimed "iff the index file's path differs
from the last committed state" is false at this input. -/
theorem c6_counterexample :
    getAssoc (update_all_plugins "out" envW stEmpty [("a.json", srcW)]).files (idxPath "out") =
      some (FileData.json (.list [.dict [("name", .str "x"), ("desc", .str "dd"),
                                         ("homepage", .str "hh")]])) ∧
    getAssoc (update_all_plugins "out" envW stEmpty [("a.json", srcW)]).committed (idxPath "out") =
      Option.none ∧
    (update_all_plugins "out" envW stEmpty [("a.json", srcW)]).log =
      ["x: Update to version 1"] :=
  ⟨rfl, rfl, rfl⟩

/-- C6 (amended): when the target directory is `"plugins"` — the layout the
hardcoded porcelain substring "plugins/index.json" assumes — a change labeled
"Update plugin index" is recorded iff the written index file differs from its
last committed state: if it differs, its own pending porcelain line contains
the needle, so the commit runs and records the label; if it is unchanged, the
`git add`/`git commit` pair stages nothing and records nothing even when the
needle occurs elsewhere in the porcelain output. -/
theorem c6_amended_plugins_dir (env : Env) (st : St) (sources : List (String × FileData)) :
    (update_all_plugins "plugins" env st sources).log =
      (if optFileBeq
            (getAssoc (preCommitState "plugins" env st sources).files (idxPath "plugins"))
            (getAssoc (preCommitState "plugins" env st sources).committed (idxPath "plugins")) = true
       then (preCommitState "plugins" env st sources).log
       else (preCommitState "plugins" env st sources).log ++ ["Update plugin index"]) := by
  have hupd : update_all_plugins "plugins" env st sources =
      (if porcelainHasNeedle (preCommitState "plugins" env st sources) = true
       then recordChange (preCommitState "plugins" env st sources) (idxPath "plugins")
              "Update plugin index"
       else preCommitState "plugins" env st sources) := rfl
  have hfeq : (preCommitState "plugins" env st sources).files =
      setAssoc (runPlugins "plugins" env st (sortSources sources)).2.files (idxPath "plugins")
        (FileData.json (.list (runPlugins "plugins" env st (sortSources sources)).1)) := rfl
  have hc : getAssoc (preCommitState "plugins" env st sources).files (idxPath "plugins") =
      some (FileData.json (.list (runPlugins "plugins" env st (sortSources sources)).1)) := by
    rw [hfeq, getAssoc_setAssoc_self]
  by_cases hb : optFileBeq
      (getAssoc (preCommitState "plugins" env st sources).files (idxPath "plugins"))
      (getAssoc (preCommitState "plugins" env st sources).committed (idxPath "plugins")) = true
  · rw [if_pos hb, hupd]
    by_cases hpc : porcelainHasNeedle (preCommitState "plugins" env st sources) = true
    · rw [if_pos hpc,
        recordChange_noop_beq _ _ _ _ hc (by rw [← hc]; exact hb)]
    · rw [if_neg hpc]
  · rw [if_neg hb]
    have hb' : optFileBeq
        (getAssoc (preCommitState "plugins" env st sources).files (idxPath "plugins"))
        (getAssoc (preCommitState "plugins" env st sources).committed (idxPath "plugins")) = false := by
      simpa using hb
    have hpend : idxPath "plugins" ∈ pendingPaths (preCommitState "plugins" env st sources) := by
      unfold pendingPaths
      apply List.mem_filter.mpr
      refine ⟨List.mem_append_left _ ?_, by rw [hb']; rfl⟩
      rw [hfeq]
      exact mem_fst_setAssoc _ _ _
    have hany : (pendingPaths (preCommitState "plugins" env st sources)).any
        (fun p => strHasSub "plugins/index.json" p) = true :=
      List.any_eq_true.mpr ⟨idxPath "plugins", hpend, by decide⟩
    have hpc : porcelainHasNeedle (preCommitState "plugins" env st sources) = true := by
      unfold porcelainHasNeedle
      rw [hany, Bool.or_true]
    have hfb : optFileBeq
        (some (FileData.json (.list (runPlugins "plugins" env st (sortSources sources)).1)))
        (getAssoc (preCommitState "plugins" env st sources).committed (idxPath "plugins")) = false := by
      rw [← hc]
      exact hb'
    rw [hupd, if_pos hpc]
    simp only [recordChange, hc, hfb]
    simp

/-- C7 counterexample: sources `a.json` and `b.json` both declare plugin `n`
(versions `va` with an unreachable artifact, and `vb` with a reachable one),
and the record on disk already holds `va`.  The first run indexes both
(`a` unchanged, `b` updated); the second run flips `a` to changed (the record
now holds `vb`), its artifact download fails, and its entry disappears — the
index file differs byte-for-byte between the runs and the second run records
another "Update plugin index" change, refuting idempotence as claimed. -/
theorem c7_counterexample :
    (update_all_plugins "plugins" envDup stDup
        [("a.json", srcA7), ("b.json", srcB7)]).log.count "Update plugin index" = 1 ∧
    (update_all_plugins "plugins" envDup
        (update_all_plugins "plugins" envDup stDup [("a.json", srcA7), ("b.json", srcB7)])
        [("a.json", srcA7), ("b.json", srcB7)]).log.count "Update plugin index" = 2 ∧
    getAssoc (update_all_plugins "plugins" envDup stDup
        [("a.json", srcA7), ("b.json", srcB7)]).files (idxPath "plugins") =
      some (.json (.list [.dict [("name", .str "n"), ("desc", .str ""), ("homepage", .str "")],
                          .dict [("name", .str "n"), ("desc", .str ""), ("homepage", .str "")]])) ∧
    getAssoc (update_all_plugins "plugins" envDup
        (update_all_plugins "plugins" envDup stDup [("a.json", srcA7), ("b.json", srcB7)])
        [("a.json", srcA7), ("b.json", srcB7)]).files (idxPath "plugins") =
      some (.json (.list [.dict [("name", .str "n"), ("desc", .str ""), ("homepage", .str "")]])) :=
  ⟨rfl, rfl, rfl, rfl⟩

theorem runPlugins_dirtOut (tdir : String) (env : Env) :
    ∀ (L : List FileData) (st : St), (runPlugins tdir env st L).2.dirtOut = st.dirtOut := by
  intro L
  induction L with
  | nil => intro st; rfl
  | cons src rest ih =>
    intro st
    simp only [runPlugins]
    rw [ih, process_dirtOut]

/-- The loop touches the filesystem and committed state only at its sources'
record paths. -/
theorem runPlugins_frame (tdir : String) (env : Env) :
    ∀ (L : List FileData) (st : St) (q : String),
      (∀ s ∈ L, ∀ p, srcKey tdir env s = some p → q ≠ p) →
      getAssoc (runPlugins tdir env st L).2.files q = getAssoc st.files q ∧
      getAssoc (runPlugins tdir env st L).2.committed q = getAssoc st.committed q := by
  intro L
  induction L with
  | nil => intro st q _; exact ⟨rfl, rfl⟩
  | cons src rest ih =>
    intro st q hq
    simp only [runPlugins]
    obtain ⟨hf₁, hc₁⟩ := process_frame tdir env st src q (hq src (by simp))
    obtain ⟨hf₂, hc₂⟩ := ih (process_plugin tdir env st src).2 q
      (fun s hs p hp => hq s (List.mem_cons_of_mem _ hs) p hp)
    exact ⟨hf₂.trans hf₁, hc₂.trans hc₁⟩

/-- `porcelainHasNeedle` reads only the working files, the committed files
and the outside-dirt flag. -/
theorem porcelain_congr (st st' : St) (hf : st.files = st'.files)
    (hc : st.committed = st'.committed) (hd : st.dirtOut = st'.dirtOut) :
    porcelainHasNeedle st = porcelainHasNeedle st' := by
  unfold porcelainHasNeedle pendingPaths
  rw [hf, hc, hd]

/-- Re-persisting a record identical to the working file, with the committed
copy already git-equal, changes nothing: the overwrite is byte-identical and
the `git add`/`git commit` pair stages nothing. -/
theorem commitRecord_noop (tdir : String) (st : St) (nm ver rec' : PyVal)
    (hf : getAssoc st.files (recPath tdir nm) = some (FileData.json rec'))
    (hc : optFileBeq (some (FileData.json rec'))
      (getAssoc st.committed (recPath tdir nm)) = true) :
    commitRecord tdir st nm ver rec' = st := by
  have h1 : setAssoc st.files (recPath tdir nm) (FileData.json rec') = st.files :=
    setAssoc_eq_of_getAssoc _ _ _ hf
  have h2 : ({ st with files := setAssoc st.files (recPath tdir nm) (FileData.json rec') } : St)
      = st := by
    rw [h1]
  simp only [commitRecord]
  rw [h2]
  exact recordChange_noop_beq st _ _ _ hf hc

/-- If a source was already reconciled — the working record file at its key
matches what processing it once produced, and the committed copy is git-equal
to it — then processing it again changes neither the registry files, nor the
committed state, nor the recorded changes, and contributes the same index
entry as the first processing. -/
theorem process_stable (tdir : String) (env : Env) (stA stB : St) (src : FileData)
    (hkf : ∀ p, srcKey tdir env src = some p →
      getAssoc stB.files p = getAssoc (process_plugin tdir env stA src).2.files p)
    (hkc : ∀ p, srcKey tdir env src = some p →
      getAssoc stB.committed p = getAssoc (process_plugin tdir env stA src).2.committed p) :
    entryOf (process_plugin tdir env stB src).1.2 =
      entryOf (process_plugin tdir env stA src).1.2 ∧
    (process_plugin tdir env stB src).2.files = stB.files ∧
    (process_plugin tdir env stB src).2.committed = stB.committed ∧
    (process_plugin tdir env stB src).2.log = stB.log := by
  cases hf : fetchStage env src with
  | none =>
    rw [process_fetchfail tdir env stA src hf, process_fetchfail tdir env stB src hf]
    exact ⟨rfl, rfl, rfl, rfl⟩
  | some mkvs =>
    have hkey : srcKey tdir env src = some (recPath tdir (dictGet mkvs "name")) := by
      simp [srcKey, hf]
    have hfB := hkf _ hkey
    have hcB := hkc _ hkey
    by_cases hv : check_version_changed tdir stA (dictGet mkvs "name") (dictGet mkvs "version") = true
    · cases hu : dictGet mkvs "downloadUrl" with
      | str durl =>
        cases ha : env.artifacts durl with
        | none =>
          rw [process_changed_badart tdir env stA src mkvs durl hf hv hu ha] at hfB ⊢
          have hvB : check_version_changed tdir stB (dictGet mkvs "name")
              (dictGet mkvs "version") = true := by
            unfold check_version_changed at hv ⊢
            rw [hfB]
            exact hv
          rw [process_changed_badart tdir env stB src mkvs durl hf hvB hu ha]
          exact ⟨rfl, rfl, rfl, rfl⟩
        | some bytes =>
          have hA := process_changed_ok tdir env stA src mkvs durl bytes hf hv hu ha
          have hpostf : getAssoc (process_plugin tdir env stA src).2.files
              (recPath tdir (dictGet mkvs "name")) =
              some (FileData.json (.dict (setAssoc mkvs "sha256" (.str (env.hashHex bytes))))) := by
            rw [hA]
            exact commitRecord_files_self _ _ _ _ _
          have hpostc : optFileBeq
              (some (FileData.json (.dict (setAssoc mkvs "sha256" (.str (env.hashHex bytes))))))
              (getAssoc (process_plugin tdir env stA src).2.committed
                (recPath tdir (dictGet mkvs "name"))) = true := by
            rw [hA]
            exact commitRecord_committed_beq _ _ _ _ _
          have hfB' : getAssoc stB.files (recPath tdir (dictGet mkvs "name")) =
              some (FileData.json (.dict (setAssoc mkvs "sha256" (.str (env.hashHex bytes))))) :=
            hfB.trans hpostf
          have hcB' : optFileBeq
              (some (FileData.json (.dict (setAssoc mkvs "sha256" (.str (env.hashHex bytes))))))
              (getAssoc stB.committed (recPath tdir (dictGet mkvs "name"))) = true := by
            rw [hcB]
            exact hpostc
          cases hver : getAssoc mkvs "version" with
          | some w =>
            have h1 : getAssoc (setAssoc mkvs "sha256" (.str (env.hashHex bytes))) "version" =
                some w := by
              rw [getAssoc_setAssoc_ne _ _ _ _ (by decide)]
              exact hver
            have hvB : check_version_changed tdir stB (dictGet mkvs "name")
                (dictGet mkvs "version") = false := by
              unfold check_version_changed
              rw [hfB']
              have h3 : dictGet mkvs "version" = w := by
                unfold dictGet
                rw [hver]
                rfl
              simp [versionChangedFile, dictGetD, h1, h3, PyVal.beq_refl]
            have hB := process_unchanged tdir env stB src mkvs hf hvB
            rw [hB, hA]
            refine ⟨?_, rfl, rfl, rfl⟩
            rw [entryOf_fetched env src mkvs hf, entryOf_record]
          | none =>
            have h1 : getAssoc (setAssoc mkvs "sha256" (.str (env.hashHex bytes))) "version" =
                Option.none := by
              rw [getAssoc_setAssoc_ne _ _ _ _ (by decide)]
              exact hver
            have hvB : check_version_changed tdir stB (dictGet mkvs "name")
                (dictGet mkvs "version") = true := by
              unfold check_version_changed
              rw [hfB']
              have h3 : dictGet mkvs "version" = PyVal.null := by
                unfold dictGet
                rw [hver]
                rfl
              simp [versionChangedFile, dictGetD, h1, h3, PyVal.beq]
            have hB := process_changed_ok tdir env stB src mkvs durl bytes hf hvB hu ha
            have hnoop : commitRecord tdir { stB with tmp := Option.none } (dictGet mkvs "name")
                (dictGet mkvs "version")
                (.dict (setAssoc mkvs "sha256" (.str (env.hashHex bytes)))) =
                { stB with tmp := Option.none } :=
              commitRecord_noop tdir _ _ _ _ hfB' hcB'
            rw [hB, hnoop, hA]
            exact ⟨rfl, rfl, rfl, rfl⟩
      | null =>
        rw [process_changed_badurl tdir env stA src mkvs hf hv (by simp [hu])] at hfB ⊢
        have hvB : check_version_changed tdir stB (dictGet mkvs "name")
            (dictGet mkvs "version") = true := by
          unfold check_version_changed at hv ⊢
          rw [hfB]
          exact hv
        rw [process_changed_badurl tdir env stB src mkvs hf hvB (by simp [hu])]
        exact ⟨rfl, rfl, rfl, rfl⟩
      | bool b =>
        rw [process_changed_badurl tdir env stA src mkvs hf hv (by simp [hu])] at hfB ⊢
        have hvB : check_version_changed tdir stB (dictGet mkvs "name")
            (dictGet mkvs "version") = true := by
          unfold check_version_changed at hv ⊢
          rw [hfB]
          exact hv
        rw [process_changed_badurl tdir env stB src mkvs hf hvB (by simp [hu])]
        exact ⟨rfl, rfl, rfl, rfl⟩
      | int n =>
        rw [process_changed_badurl tdir env stA src mkvs hf hv (by simp [hu])] at hfB ⊢
        have hvB : check_version_changed tdir stB (dictGet mkvs "name")
            (dictGet mkvs "version") = true := by
          unfold check_version_changed at hv ⊢
          rw [hfB]
          exact hv
        rw [process_changed_badurl tdir env stB src mkvs hf hvB (by simp [hu])]
        exact ⟨rfl, rfl, rfl, rfl⟩
      | list xs =>
        rw [process_changed_badurl tdir env stA src mkvs hf hv (by simp [hu])] at hfB ⊢
        have hvB : check_version_changed tdir stB (dictGet mkvs "name")
            (dictGet mkvs "version") = true := by
          unfold check_version_changed at hv ⊢
          rw [hfB]
          exact hv
        rw [process_changed_badurl tdir env stB src mkvs hf hvB (by simp [hu])]
        exact ⟨rfl, rfl, rfl, rfl⟩
      | dict kvs =>
        rw [process_changed_badurl tdir env stA src mkvs hf hv (by simp [hu])] at hfB ⊢
        have hvB : check_version_changed tdir stB (dictGet mkvs "name")
            (dictGet mkvs "version") = true := by
          unfold check_version_changed at hv ⊢
          rw [hfB]
          exact hv
        rw [process_changed_badurl tdir env stB src mkvs hf hvB (by simp [hu])]
        exact ⟨rfl, rfl, rfl, rfl⟩
    · have hv' : check_version_changed tdir stA (dictGet mkvs "name")
          (dictGet mkvs "version") = false := by
        simpa using hv
      have hA := process_unchanged tdir env stA src mkvs hf hv'
      rw [hA] at hfB
      have hvB : check_version_changed tdir stB (dictGet mkvs "name")
          (dictGet mkvs "version") = false := by
        unfold check_version_changed at hv' ⊢
        rw [hfB]
        exact hv'
      rw [process_unchanged tdir env stB src mkvs hf hvB, hA]
      exact ⟨rfl, rfl, rfl, rfl⟩

/-- Running the loop again over sources whose record paths are pairwise
distinct, starting from a state that agrees with the first run's final
registry at every source's record path, reproduces exactly the same index
entries and leaves files, committed state and recorded changes untouched. -/
theorem runPlugins_stable (tdir : String) (env : Env) :
    ∀ (L : List FileData) (stA stB : St),
      L.Pairwise (fun s₁ s₂ => ∀ p₁ p₂, srcKey tdir env s₁ = some p₁ →
        srcKey tdir env s₂ = some p₂ → p₁ ≠ p₂) →
      (∀ s ∈ L, ∀ p, srcKey tdir env s = some p →
        getAssoc stB.files p = getAssoc (runPlugins tdir env stA L).2.files p ∧
        getAssoc stB.committed p = getAssoc (runPlugins tdir env stA L).2.committed p) →
      (runPlugins tdir env stB L).1 = (runPlugins tdir env stA L).1 ∧
      (runPlugins tdir env stB L).2.files = stB.files ∧
      (runPlugins tdir env stB L).2.committed = stB.committed ∧
      (runPlugins tdir env stB L).2.log = stB.log := by
  intro L
  induction L with
  | nil => intro stA stB _ _; exact ⟨rfl, rfl, rfl, rfl⟩
  | cons src rest ih =>
    intro stA stB hdist hagree
    have hdist' := List.pairwise_cons.mp hdist
    have htail : (runPlugins tdir env stA (src :: rest)).2 =
        (runPlugins tdir env (process_plugin tdir env stA src).2 rest).2 := rfl
    have hframe : ∀ p, srcKey tdir env src = some p →
        getAssoc (runPlugins tdir env (process_plugin tdir env stA src).2 rest).2.files p =
          getAssoc (process_plugin tdir env stA src).2.files p ∧
        getAssoc (runPlugins tdir env (process_plugin tdir env stA src).2 rest).2.committed p =
          getAssoc (process_plugin tdir env stA src).2.committed p := by
      intro p hp
      exact runPlugins_frame tdir env rest _ p
        (fun s' hs' p' hp' => hdist'.1 s' hs' p p' hp hp')
    have hkf : ∀ p, srcKey tdir env src = some p →
        getAssoc stB.files p = getAssoc (process_plugin tdir env stA src).2.files p := by
      intro p hp
      have h := (hagree src (by simp) p hp).1
      rw [htail] at h
      rw [h]
      exact (hframe p hp).1
    have hkc : ∀ p, srcKey tdir env src = some p →
        getAssoc stB.committed p = getAssoc (process_plugin tdir env stA src).2.committed p := by
      intro p hp
      have h := (hagree src (by simp) p hp).2
      rw [htail] at h
      rw [h]
      exact (hframe p hp).2
    obtain ⟨hent, hBf, hBc, hBl⟩ := process_stable tdir env stA stB src hkf hkc
    have hagree' : ∀ s ∈ rest, ∀ p, srcKey tdir env s = some p →
        getAssoc (process_plugin tdir env stB src).2.files p =
          getAssoc (runPlugins tdir env (process_plugin tdir env stA src).2 rest).2.files p ∧
        getAssoc (process_plugin tdir env stB src).2.committed p =
          getAssoc (runPlugins tdir env (process_plugin tdir env stA src).2 rest).2.committed p := by
      intro s hs p hp
      have h := hagree s (List.mem_cons_of_mem _ hs) p hp
      rw [htail] at h
      exact ⟨by rw [hBf]; exact h.1, by rw [hBc]; exact h.2⟩
    obtain ⟨hI, hf2, hc2, hl2⟩ := ih (process_plugin tdir env stA src).2
      (process_plugin tdir env stB src).2 hdist'.2 hagree'
    refine ⟨?_, ?_, ?_, ?_⟩
    · simp only [runPlugins]
      rw [hent, hI]
    · simp only [runPlugins]
      rw [hf2, hBf]
    · simp only [runPlugins]
      rw [hc2, hBc]
    · simp only [runPlugins]
      rw [hl2, hBl]

/-- C7 (amended): running the whole batch twice with the same upstream
responses produces byte-for-byte identical registry files (records and
index), an identical committed state, and an identical change log — so in
particular the second run records no "Update plugin index" change and no
per-plugin change — PROVIDED no two sources resolve to the same record file
and no source's record file is the index file itself.  (The counterexample
shows both provisos are necessary: duplicate names make the second run's
index differ, and a plugin named "index" collides with `index.json`.) -/
theorem c7_amended_idempotent (tdir : String) (env : Env) (st0 : St)
    (sources : List (String × FileData))
    (hdist : (sortSources sources).Pairwise (fun s₁ s₂ => ∀ p₁ p₂,
      srcKey tdir env s₁ = some p₁ → srcKey tdir env s₂ = some p₂ → p₁ ≠ p₂))
    (hnix : ∀ s ∈ sortSources sources, ∀ p, srcKey tdir env s = some p → p ≠ idxPath tdir) :
    (update_all_plugins tdir env (update_all_plugins tdir env st0 sources) sources).files =
      (update_all_plugins tdir env st0 sources).files ∧
    (update_all_plugins tdir env (update_all_plugins tdir env st0 sources) sources).committed =
      (update_all_plugins tdir env st0 sources).committed ∧
    (update_all_plugins tdir env (update_all_plugins tdir env st0 sources) sources).log =
      (update_all_plugins tdir env st0 sources).log := by
  set st1 : St := update_all_plugins tdir env st0 sources with hst1
  set st2 : St := update_all_plugins tdir env st1 sources with hst2
  have hupd1 : st1 = (if porcelainHasNeedle (preCommitState tdir env st0 sources) = true
      then recordChange (preCommitState tdir env st0 sources) (idxPath tdir)
        "Update plugin index"
      else preCommitState tdir env st0 sources) := hst1.trans rfl
  have hupd2 : st2 = (if porcelainHasNeedle (preCommitState tdir env st1 sources) = true
      then recordChange (preCommitState tdir env st1 sources) (idxPath tdir)
        "Update plugin index"
      else preCommitState tdir env st1 sources) := hst2.trans rfl
  have hPreF : (preCommitState tdir env st0 sources).files =
      setAssoc (runPlugins tdir env st0 (sortSources sources)).2.files (idxPath tdir)
        (FileData.json (.list (runPlugins tdir env st0 (sortSources sources)).1)) := rfl
  have hPreC : (preCommitState tdir env st0 sources).committed =
      (runPlugins tdir env st0 (sortSources sources)).2.committed := rfl
  have hPreD : (preCommitState tdir env st0 sources).dirtOut =
      (runPlugins tdir env st0 (sortSources sources)).2.dirtOut := rfl
  have h1f : st1.files = (preCommitState tdir env st0 sources).files := by
    rw [hupd1]
    split
    · rw [recordChange_files]
    · rfl
  have h1cne : ∀ q, q ≠ idxPath tdir →
      getAssoc st1.committed q = getAssoc (preCommitState tdir env st0 sources).committed q := by
    intro q hq
    rw [hupd1]
    split
    · rw [recordChange_committed_ne _ _ _ _ hq]
    · rfl
  have h1d : st1.dirtOut = (preCommitState tdir env st0 sources).dirtOut := by
    rw [hupd1]
    split
    · rw [recordChange_dirtOut]
    · rfl
  have hagree : ∀ s ∈ sortSources sources, ∀ p, srcKey tdir env s = some p →
      getAssoc st1.files p =
        getAssoc (runPlugins tdir env st0 (sortSources sources)).2.files p ∧
      getAssoc st1.committed p =
        getAssoc (runPlugins tdir env st0 (sortSources sources)).2.committed p := by
    intro s hs p hp
    have hpx : p ≠ idxPath tdir := hnix s hs p hp
    constructor
    · rw [h1f, hPreF, getAssoc_setAssoc_ne _ _ _ _ hpx]
    · rw [h1cne p hpx, hPreC]
  obtain ⟨hI, hBf, hBc, hBl⟩ :=
    runPlugins_stable tdir env (sortSources sources) st0 st1 hdist hagree
  have hidx1 : getAssoc st1.files (idxPath tdir) =
      some (FileData.json (.list (runPlugins tdir env st0 (sortSources sources)).1)) := by
    rw [h1f, hPreF, getAssoc_setAssoc_self]
  have hP2f : (preCommitState tdir env st1 sources).files = st1.files := by
    rw [show (preCommitState tdir env st1 sources).files =
        setAssoc (runPlugins tdir env st1 (sortSources sources)).2.files (idxPath tdir)
          (FileData.json (.list (runPlugins tdir env st1 (sortSources sources)).1)) from rfl]
    rw [hBf, hI]
    exact setAssoc_eq_of_getAssoc _ _ _ hidx1
  have hP2c : (preCommitState tdir env st1 sources).committed = st1.committed := by
    rw [show (preCommitState tdir env st1 sources).committed =
        (runPlugins tdir env st1 (sortSources sources)).2.committed from rfl]
    exact hBc
  have hP2l : (preCommitState tdir env st1 sources).log = st1.log := by
    rw [show (preCommitState tdir env st1 sources).log =
        (runPlugins tdir env st1 (sortSources sources)).2.log from rfl]
    exact hBl
  have hP2d : (preCommitState tdir env st1 sources).dirtOut = st1.dirtOut := by
    rw [show (preCommitState tdir env st1 sources).dirtOut =
        (runPlugins tdir env st1 (sortSources sources)).2.dirtOut from rfl]
    exact runPlugins_dirtOut tdir env (sortSources sources) st1
  by_cases hpc1 : porcelainHasNeedle (preCommitState tdir env st0 sources) = true
  · have hst1eq : st1 = recordChange (preCommitState tdir env st0 sources) (idxPath tdir)
        "Update plugin index" := by
      rw [hupd1, if_pos hpc1]
    have hPreIdxF : getAssoc (preCommitState tdir env st0 sources).files (idxPath tdir) =
        some (FileData.json (.list (runPlugins tdir env st0 (sortSources sources)).1)) := by
      rw [hPreF, getAssoc_setAssoc_self]
    have hcbeq : optFileBeq
        (some (FileData.json (.list (runPlugins tdir env st0 (sortSources sources)).1)))
        (getAssoc st1.committed (idxPath tdir)) = true := by
      rw [hst1eq]
      exact recordChange_committed_beq _ _ _ _ hPreIdxF
    by_cases hpc2 : porcelainHasNeedle (preCommitState tdir env st1 sources) = true
    · have hst2eq : st2 = recordChange (preCommitState tdir env st1 sources) (idxPath tdir)
          "Update plugin index" := by
        rw [hupd2, if_pos hpc2]
      have hidx2 : getAssoc (preCommitState tdir env st1 sources).files (idxPath tdir) =
          some (FileData.json (.list (runPlugins tdir env st0 (sortSources sources)).1)) := by
        rw [hP2f]
        exact hidx1
      have hcbeq2 : optFileBeq
          (some (FileData.json (.list (runPlugins tdir env st0 (sortSources sources)).1)))
          (getAssoc (preCommitState tdir env st1 sources).committed (idxPath tdir)) = true := by
        rw [hP2c]
        exact hcbeq
      have hnoop2 : recordChange (preCommitState tdir env st1 sources) (idxPath tdir)
          "Update plugin index" = preCommitState tdir env st1 sources :=
        recordChange_noop_beq _ _ _ _ hidx2 hcbeq2
      rw [hst2eq, hnoop2]
      exact ⟨hP2f, hP2c, hP2l⟩
    · have hst2eq : st2 = preCommitState tdir env st1 sources := by
        rw [hupd2, if_neg hpc2]
      rw [hst2eq]
      exact ⟨hP2f, hP2c, hP2l⟩
  · have hst1eq : st1 = preCommitState tdir env st0 sources := by
      rw [hupd1, if_neg hpc1]
    have hpc2 : ¬ porcelainHasNeedle (preCommitState tdir env st1 sources) = true := by
      have hcong : porcelainHasNeedle (preCommitState tdir env st1 sources) =
          porcelainHasNeedle (preCommitState tdir env st0 sources) := by
        apply porcelain_congr
        · rw [hP2f, hst1eq]
        · rw [hP2c, hst1eq]
        · rw [hP2d, hst1eq]
      rw [hcong]
      exact hpc1
    have hst2eq : st2 = preCommitState tdir env st1 sources := by
      rw [hupd2, if_neg hpc2]
    rw [hst2eq]
    exact ⟨hP2f, hP2c, hP2l⟩

theorem c7_amended_idempotent_witness :
    (update_all_plugins "plugins" envW (update_all_plugins "plugins" envW stEmpty
        [("a.json", srcW)]) [("a.json", srcW)]).files =
      (update_all_plugins "plugins" envW stEmpty [("a.json", srcW)]).files ∧
    (update_all_plugins "plugins" envW (update_all_plugins "plugins" envW stEmpty
        [("a.json", srcW)]) [("a.json", srcW)]).committed =
      (update_all_plugins "plugins" envW stEmpty [("a.json", srcW)]).committed ∧
    (update_all_plugins "plugins" envW (update_all_plugins "plugins" envW stEmpty
        [("a.json", srcW)]) [("a.json", srcW)]).log =
      (update_all_plugins "plugins" envW stEmpty [("a.json", srcW)]).log := by
  apply c7_amended_idempotent
  · have h : sortSources [("a.json", srcW)] = [srcW] := rfl
    rw [h]
    simp
  · intro s hs p hp
    have h : sortSources [("a.json", srcW)] = [srcW] := rfl
    rw [h] at hs
    have hs' : s = srcW := by simpa using hs
    subst hs'
    have hkey : srcKey "plugins" envW srcW = some "plugins/x.json" := rfl
    rw [hkey] at hp
    injection hp with hp'
    subst hp'
    decide
